import Mathlib

/-
  Verification of the Forest Temperature Monitor core:
  the deterministic weather-simulation generator
  (src/utils/data_fetcher.py and src/temp_export/utils/data_fetcher.py)
  and the rolling per-location history buffer (src/app.py, module-level
  refresh block).

  Python floats are modelled as exact rationals; Python ints as Int/Nat.
  Python round(x) and round(x, 1) use round-half-to-even (banker's
  rounding), modelled by roundHalfEven below.  The Python float modulo
  x % y (for y > 0) returns x - y * floor(x / y), modelled by pymod.
  Python's builtin abs, min and max are modelled by qabs, qmin, qmax
  (on floats) and imin, imax (on ints).
-/

namespace Forest

/-- Python abs on a float: -x if x < 0 else x. -/
def qabs (x : ℚ) : ℚ := if x < 0 then -x else x

/-- Python min of two floats: returns the first argument on ties. -/
def qmin (a b : ℚ) : ℚ := if b < a then b else a

/-- Python max of two floats: returns the first argument on ties. -/
def qmax (a b : ℚ) : ℚ := if a < b then b else a

/-- Python min of two ints. -/
def imin (a b : ℤ) : ℤ := if b < a then b else a

/-- Python max of two ints. -/
def imax (a b : ℤ) : ℤ := if a < b then b else a

/-- Python round-half-to-even of a rational to an integer:
round(x) returns the nearest integer, ties going to the even integer. -/
def roundHalfEven (x : ℚ) : ℤ :=
  let f : ℤ := ⌊x⌋
  let r : ℚ := x - (f : ℚ)
  if r < 1/2 then f
  else if 1/2 < r then f + 1
  else if 2 ∣ f then f else f + 1

/-- Python round(x, 1): round to one decimal place, half to even. -/
def round1 (x : ℚ) : ℚ :=
  ((roundHalfEven (10 * x) : ℤ) : ℚ) / 10

/-- Python float modulo with positive divisor: x % y = x - y * floor(x / y). -/
def pymod (x y : ℚ) : ℚ :=
  x - y * ((⌊x / y⌋ : ℤ) : ℚ)

/-- The dict returned by both _generate_fallback_data variants:
current_temp, humidity, wind_speed, temp_change.  Python round with a
single argument returns an int, so humidity is an integer. -/
structure Reading where
  current_temp : ℚ
  humidity : ℤ
  wind_speed : ℚ
  temp_change : ℚ
deriving DecidableEq, Repr

/-- Embedding of _generate_fallback_data (src/utils/data_fetcher.py,
lines 67-104).  The Python code reads hour = datetime.now().hour inside
the function; the wall-clock hour is passed here as an explicit
parameter, the only part of the ambient state the function reads. -/
def generateFallbackData (lat lon : ℚ) (hour : ℕ) : Reading :=
  let base_temp : ℚ := 30 - qabs lat * 0.5
  let time_factor : ℚ := qabs (((hour : ℚ) - 14) / 12)
  let temp_adjustment : ℚ := -8 + (16 * (1 - time_factor))
  let current_temp : ℚ := round1 (base_temp + temp_adjustment)
  let current_temp : ℚ := qmax (qmin current_temp 45) (-10)
  let humidity_base : ℚ := 60 + (90 - qabs lat) * 0.5
  let humidity : ℤ := imin 95 (imax 30 (roundHalfEven humidity_base))
  let wind_base : ℚ := pymod (qabs lon) 10
  let wind_speed : ℚ := round1 (wind_base + 2)
  let temp_change : ℚ := round1 ((((hour % 3 : ℕ) : ℚ) - 1) * 0.8)
  ⟨current_temp, humidity, wind_speed, temp_change⟩

/-- The temperature formula as the spec states it (spec section 4.1,
steps 1-6): round(base_temp + temp_adjustment, 1 decimal) clamped to
[-10, 45], with clamp(x, lo, hi) = max(min(x, hi), lo) as in the source. -/
def specCurrentTemp (lat : ℚ) (hour : ℕ) : ℚ :=
  qmax (qmin (round1 (30 - qabs lat * 0.5 +
    (-8 + (16 * (1 - qabs (((hour : ℚ) - 14) / 12)))))) 45) (-10)

/-- The humidity formula as the spec states it (spec section 4.1,
step 7): humidity = clamp(round(60 + (90 - abs lat) * 0.5), 30, 95). -/
def specHumidity (lat : ℚ) : ℤ :=
  imax 30 (imin (roundHalfEven (60 + (90 - qabs lat) * 0.5)) 95)

/-- The wind-speed formula as the spec states it (spec section 8):
wind_speed = round((abs lon mod 10) + 2, 1 decimal). -/
def specWindSpeed (lon : ℚ) : ℚ :=
  round1 (pymod (qabs lon) 10 + 2)

/-- Division with an explicit failure case: in Python a division by zero
raises ZeroDivisionError, modelled as none. -/
def qdivChecked (x y : ℚ) : Option ℚ :=
  if y = 0 then none else some (x / y)

/-- Python float modulo with an explicit failure case for a zero divisor. -/
def pymodChecked (x y : ℚ) : Option ℚ :=
  if y = 0 then none else some (pymod x y)

/-- Python round(x, 1) with its internal division by 10 checked. -/
def round1Checked (x : ℚ) : Option ℚ :=
  qdivChecked ((roundHalfEven (10 * x) : ℤ) : ℚ) 10

/-- Embedding of _generate_fallback_data with every partial operation
(the divisions by 12 and 10 and the modulo by 10) made explicit, so that
totality of the generator is a provable statement rather than an
assumption. -/
def generateFallbackDataChecked (lat lon : ℚ) (hour : ℕ) : Option Reading := do
  let base_temp : ℚ := 30 - qabs lat * 0.5
  let tf ← qdivChecked ((hour : ℚ) - 14) 12
  let time_factor : ℚ := qabs tf
  let temp_adjustment : ℚ := -8 + (16 * (1 - time_factor))
  let ct ← round1Checked (base_temp + temp_adjustment)
  let current_temp : ℚ := qmax (qmin ct 45) (-10)
  let humidity_base : ℚ := 60 + (90 - qabs lat) * 0.5
  let humidity : ℤ := imin 95 (imax 30 (roundHalfEven humidity_base))
  let wb ← pymodChecked (qabs lon) 10
  let ws ← round1Checked (wb + 2)
  let tc ← round1Checked ((((hour % 3 : ℕ) : ℚ) - 1) * 0.8)
  pure ⟨current_temp, humidity, ws, tc⟩

/-- Outcome of the network call in fetch_weather_data
(src/utils/data_fetcher.py, lines 35-65): either requests.get returned a
response with some status code and parsed body fields, or an exception
was raised somewhere in the try block. -/
inductive ApiOutcome where
  | response (statusCode : ℕ) (temp : ℚ) (humidity : ℤ) (wind : ℚ)
  | exception
deriving DecidableEq, Repr

/-- Whether the API call counts as a success in the source: a response
with status code 200. -/
def apiSuccess : ApiOutcome → Bool
  | .response sc _ _ _ => sc == 200
  | .exception => false

/-- Embedding of fetch_weather_data (src/utils/data_fetcher.py, lines
35-65).  The network outcome and the random temp_change used on the
success path are explicit parameters; on a response with status code
other than 200, and on any exception, the function returns the fallback
data. -/
def fetch_weather_data (lat lon : ℚ) (hour : ℕ) (outcome : ApiOutcome)
    (randTempChange : ℚ) : Reading :=
  match outcome with
  | .response sc t h w =>
      if sc = 200 then ⟨t, h, w, randTempChange⟩
      else generateFallbackData lat lon hour
  | .exception => generateFallbackData lat lon hour

namespace TempExport

/-- Embedding of _generate_fallback_data in the temp_export variant
(src/temp_export/utils/data_fetcher.py, lines 37-74); the Python body is
textually identical to the one in src/utils/data_fetcher.py. -/
def generateFallbackData (lat lon : ℚ) (hour : ℕ) : Reading :=
  let base_temp : ℚ := 30 - qabs lat * 0.5
  let time_factor : ℚ := qabs (((hour : ℚ) - 14) / 12)
  let temp_adjustment : ℚ := -8 + (16 * (1 - time_factor))
  let current_temp : ℚ := round1 (base_temp + temp_adjustment)
  let current_temp : ℚ := qmax (qmin current_temp 45) (-10)
  let humidity_base : ℚ := 60 + (90 - qabs lat) * 0.5
  let humidity : ℤ := imin 95 (imax 30 (roundHalfEven humidity_base))
  let wind_base : ℚ := pymod (qabs lon) 10
  let wind_speed : ℚ := round1 (wind_base + 2)
  let temp_change : ℚ := round1 ((((hour % 3 : ℕ) : ℚ) - 1) * 0.8)
  ⟨current_temp, humidity, wind_speed, temp_change⟩

/-- Embedding of fetch_weather_data in the temp_export variant
(src/temp_export/utils/data_fetcher.py, lines 20-35): it performs no
network call at all and directly returns the fallback data. -/
def fetch_weather_data (lat lon : ℚ) (hour : ℕ) : Reading :=
  TempExport.generateFallbackData lat lon hour

end TempExport

/-- One stored sample (src/app.py, lines 114-119): a timestamp plus the
temperature, humidity and wind_speed fields of the fetched reading.
Timestamps are modelled as naturals. -/
structure HistoryEntry where
  timestamp : ℕ
  temperature : ℚ
  humidity : ℤ
  wind_speed : ℚ
deriving DecidableEq, Repr

/-- st.session_state.temperature_history: a Python dict from forest name
to list of entries, modelled as an association list keyed by the first
occurrence of each key. -/
abbrev HistoryStore := List (String × List HistoryEntry)

/-- Python dict read d[key]: some value when the key is present, none
standing for the KeyError raised on a missing key. -/
def dictLookup : HistoryStore → String → Option (List HistoryEntry)
  | [], _ => none
  | (k, v) :: rest, key => if key = k then some v else dictLookup rest key

/-- Python dict write d[key] = v: replaces the value of an existing key,
otherwise adds the key at the end. -/
def dictInsert : HistoryStore → String → List HistoryEntry → HistoryStore
  | [], key, v => [(key, v)]
  | (k, w) :: rest, key, v =>
      if key = k then (k, v) :: rest else (k, w) :: dictInsert rest key v

/-- The dict starts empty (src/app.py, line 84). -/
def emptyHistory : HistoryStore := []

/-- Python list slice s[-k:]: the last k elements for k > 0 (the whole
list when k >= len(s)), and the whole list when k = 0 since s[0:] = s. -/
def lastSlice (k : ℕ) (s : List HistoryEntry) : List HistoryEntry :=
  if k = 0 then s else s.drop (s.length - k)

/-- The history cap (src/app.py, line 124): int(24 * 60 /
refresh_interval) truncates the float quotient toward zero, which for
every slider value of refresh_interval (5 to 60, step 5, so the quotient
is at most 288 and the float division is exact or has error far below 1)
equals the floor, i.e. natural-number division. -/
def max_history (refresh_interval : ℕ) : ℕ :=
  24 * 60 / refresh_interval

/-- Guard at src/app.py lines 96-97: if the selected forest has no key
yet, it is inserted with an empty list. -/
def ensureKey (store : HistoryStore) (loc : String) : HistoryStore :=
  match dictLookup store loc with
  | some _ => store
  | none => dictInsert store loc []

/-- The pure list-level effect of one append plus conditional trim
(src/app.py, lines 121-126): append the entry, and if the length now
exceeds the cap, keep only the last cap elements. -/
def appendTrim (cap : ℕ) (s : List HistoryEntry) (e : HistoryEntry) : List HistoryEntry :=
  let t := s ++ [e]
  if t.length > cap then lastSlice cap t else t

/-- One refresh-cycle update of the history store for the selected
forest (src/app.py, lines 96-97 and 121-126): ensure the key exists,
append the entry to its list, then trim to the cap if exceeded. -/
def appendEntry (cap : ℕ) (store : HistoryStore) (loc : String) (e : HistoryEntry) :
    HistoryStore :=
  let st := ensureKey store loc
  dictInsert st loc (appendTrim cap ((dictLookup st loc).getD []) e)

/-- The guarded read of a location's history (src/app.py, lines
215-216): the stored list when the key is present, the empty list
otherwise (the source shows the no-data message instead of reading). -/
def historyGet (store : HistoryStore) (loc : String) : List HistoryEntry :=
  (dictLookup store loc).getD []

/-- Appending a sequence of entries for one location, one refresh cycle
at a time. -/
def appendSeq (cap : ℕ) (store : HistoryStore) (loc : String) (es : List HistoryEntry) :
    HistoryStore :=
  es.foldl (fun st e => appendEntry cap st loc e) store

/-- Appending a sequence of (location, entry) pairs, one refresh cycle
at a time. -/
def appendMany (cap : ℕ) (store : HistoryStore) (ops : List (String × HistoryEntry)) :
    HistoryStore :=
  ops.foldl (fun st p => appendEntry cap st p.1 p.2) store

/-- The list-level trace of appendSeq on a single location's list. -/
def runAppends (cap : ℕ) (s : List HistoryEntry) (es : List HistoryEntry) :
    List HistoryEntry :=
  es.foldl (appendTrim cap) s

/-- A concrete entry used in witnesses. -/
def sampleEntry (n : ℕ) : HistoryEntry :=
  ⟨n, 0, 0, 0⟩

theorem qabs_eq_abs (x : ℚ) : qabs x = |x| := by
  unfold qabs
  rcases lt_or_ge x 0 with h | h
  · rw [if_pos h, abs_of_neg h]
  · rw [if_neg (not_lt.mpr h), abs_of_nonneg h]

theorem qmin_eq_min (a b : ℚ) : qmin a b = min a b := by
  unfold qmin
  rcases lt_or_ge b a with h | h
  · rw [if_pos h, min_eq_right (le_of_lt h)]
  · rw [if_neg (not_lt.mpr h), min_eq_left h]

theorem qmax_eq_max (a b : ℚ) : qmax a b = max a b := by
  unfold qmax
  rcases lt_or_ge a b with h | h
  · rw [if_pos h, max_eq_right (le_of_lt h)]
  · rw [if_neg (not_lt.mpr h), max_eq_left h]

theorem imin_eq_min (a b : ℤ) : imin a b = min a b := by
  unfold imin
  rcases lt_or_ge b a with h | h
  · rw [if_pos h, min_eq_right (le_of_lt h)]
  · rw [if_neg (not_lt.mpr h), min_eq_left h]

theorem imax_eq_max (a b : ℤ) : imax a b = max a b := by
  unfold imax
  rcases lt_or_ge a b with h | h
  · rw [if_pos h, max_eq_right (le_of_lt h)]
  · rw [if_neg (not_lt.mpr h), max_eq_left h]

/-- Evaluation rule for roundHalfEven when x lies in [n, n + 1/2). -/
theorem roundHalfEven_of_lt_half (x : ℚ) (n : ℤ) (h1 : (n : ℚ) ≤ x)
    (h2 : x < (n : ℚ) + 1/2) : roundHalfEven x = n := by
  have hf : ⌊x⌋ = n := Int.floor_eq_iff.mpr ⟨h1, by linarith⟩
  unfold roundHalfEven
  rw [hf, if_pos (by linarith)]

/-- Evaluation rule for roundHalfEven when x lies in (n + 1/2, n + 1). -/
theorem roundHalfEven_of_gt_half (x : ℚ) (n : ℤ) (h1 : (n : ℚ) + 1/2 < x)
    (h2 : x < (n : ℚ) + 1) : roundHalfEven x = n + 1 := by
  have hf : ⌊x⌋ = n := Int.floor_eq_iff.mpr ⟨by linarith, h2⟩
  unfold roundHalfEven
  rw [hf, if_neg (by simp only [not_lt]; linarith), if_pos (by linarith)]

theorem generateFallbackData_current_temp (lat lon : ℚ) (hour : ℕ) :
    (generateFallbackData lat lon hour).current_temp =
      qmax (qmin (round1 (30 - qabs lat * 0.5 +
        (-8 + (16 * (1 - qabs (((hour : ℚ) - 14) / 12)))))) 45) (-10) := rfl

theorem generateFallbackData_humidity (lat lon : ℚ) (hour : ℕ) :
    (generateFallbackData lat lon hour).humidity =
      imin 95 (imax 30 (roundHalfEven (60 + (90 - qabs lat) * 0.5))) := rfl

theorem generateFallbackData_wind_speed (lat lon : ℚ) (hour : ℕ) :
    (generateFallbackData lat lon hour).wind_speed =
      round1 (pymod (qabs lon) 10 + 2) := rfl

theorem generateFallbackData_temp_change (lat lon : ℚ) (hour : ℕ) :
    (generateFallbackData lat lon hour).temp_change =
      round1 ((((hour % 3 : ℕ) : ℚ) - 1) * 0.8) := rfl

theorem dictLookup_insert_self (store : HistoryStore) (key : String)
    (v : List HistoryEntry) : dictLookup (dictInsert store key v) key = some v := by
  induction store with
  | nil => simp [dictInsert, dictLookup]
  | cons hd tl ih =>
      obtain ⟨k, w⟩ := hd
      by_cases h : key = k
      · simp [dictInsert, dictLookup, h]
      · simp [dictInsert, dictLookup, h, ih]

theorem dictLookup_insert_other (store : HistoryStore) (key other : String)
    (v : List HistoryEntry) (h : other ≠ key) :
    dictLookup (dictInsert store key v) other = dictLookup store other := by
  induction store with
  | nil => simp [dictInsert, dictLookup, h]
  | cons hd tl ih =>
      obtain ⟨k, w⟩ := hd
      by_cases hk : key = k
      · subst hk
        simp [dictInsert, dictLookup, h]
      · simp [dictInsert, dictLookup, hk, ih]

theorem ensureKey_lookup_self (store : HistoryStore) (loc : String) :
    (dictLookup (ensureKey store loc) loc).getD [] = (dictLookup store loc).getD [] := by
  unfold ensureKey
  cases h : dictLookup store loc with
  | some s => simp [h]
  | none => simp [h, dictLookup_insert_self]

theorem ensureKey_lookup_other (store : HistoryStore) (loc other : String)
    (h : other ≠ loc) :
    dictLookup (ensureKey store loc) other = dictLookup store other := by
  unfold ensureKey
  cases hl : dictLookup store loc with
  | some s => simp [hl]
  | none => simp [hl, dictLookup_insert_other _ _ _ _ h]

theorem historyGet_appendEntry_self (cap : ℕ) (store : HistoryStore) (loc : String)
    (e : HistoryEntry) :
    historyGet (appendEntry cap store loc e) loc =
      appendTrim cap (historyGet store loc) e := by
  unfold historyGet appendEntry
  rw [dictLookup_insert_self, ensureKey_lookup_self]
  rfl

theorem dictLookup_appendEntry_other (cap : ℕ) (store : HistoryStore)
    (loc other : String) (e : HistoryEntry) (h : other ≠ loc) :
    dictLookup (appendEntry cap store loc e) other = dictLookup store other := by
  unfold appendEntry
  rw [dictLookup_insert_other _ _ _ _ h, ensureKey_lookup_other _ _ _ h]

theorem appendTrim_no_trim (cap : ℕ) (s : List HistoryEntry) (e : HistoryEntry)
    (h : s.length + 1 ≤ cap) : appendTrim cap s e = s ++ [e] := by
  unfold appendTrim
  rw [if_neg]
  simp only [List.length_append, List.length_cons, List.length_nil, gt_iff_lt, not_lt]
  omega

theorem appendTrim_length_le (cap : ℕ) (hcap : 0 < cap) (s : List HistoryEntry)
    (e : HistoryEntry) (hs : s.length ≤ cap) : (appendTrim cap s e).length ≤ cap := by
  unfold appendTrim lastSlice
  by_cases h : (s ++ [e]).length > cap
  · rw [if_pos h, if_neg (by omega)]
    simp only [List.length_drop, List.length_append, List.length_cons, List.length_nil]
    omega
  · rw [if_neg h]
    simp only [List.length_append, List.length_cons, List.length_nil]
    simp only [List.length_append, List.length_cons, List.length_nil, gt_iff_lt, not_lt] at h
    omega

theorem appendTrim_length_eq (cap : ℕ) (hcap : 0 < cap) (s : List HistoryEntry)
    (e : HistoryEntry) (hfire : cap < s.length + 1) :
    (appendTrim cap s e).length = cap := by
  unfold appendTrim lastSlice
  have hgt : (s ++ [e]).length > cap := by
    simp only [List.length_append, List.length_cons, List.length_nil]
    omega
  rw [if_pos hgt, if_neg (by omega)]
  simp only [List.length_drop, List.length_append, List.length_cons, List.length_nil]
  omega

theorem historyGet_appendSeq (cap : ℕ) (store : HistoryStore) (loc : String)
    (es : List HistoryEntry) :
    historyGet (appendSeq cap store loc es) loc =
      runAppends cap (historyGet store loc) es := by
  induction es generalizing store with
  | nil => rfl
  | cons e es ih =>
      show historyGet (appendSeq cap (appendEntry cap store loc e) loc es) loc =
        runAppends cap (historyGet store loc) (e :: es)
      rw [ih, historyGet_appendEntry_self]
      rfl

theorem runAppends_no_trim (cap : ℕ) (es s : List HistoryEntry)
    (h : s.length + es.length ≤ cap) : runAppends cap s es = s ++ es := by
  induction es generalizing s with
  | nil => simp [runAppends]
  | cons e es ih =>
      show runAppends cap (appendTrim cap s e) es = s ++ e :: es
      rw [appendTrim_no_trim cap s e (by simp only [List.length_cons] at h; omega)]
      rw [ih (s ++ [e]) (by simp only [List.length_append, List.length_cons,
        List.length_nil] at h ⊢; omega)]
      simp

theorem runAppends_overflow (cap : ℕ) (hcap : 0 < cap) (es : List HistoryEntry)
    (hlen : es.length = cap + 1) : runAppends cap [] es = es.drop 1 := by
  have hne : es ≠ [] := by
    intro h
    rw [h] at hlen
    simp at hlen
  obtain ⟨front, a, hfa⟩ : ∃ front a, es = front ++ [a] :=
    ⟨es.dropLast, es.getLast hne, (List.dropLast_append_getLast hne).symm⟩
  subst hfa
  have hfront : front.length = cap := by
    simp only [List.length_append, List.length_cons, List.length_nil] at hlen
    omega
  rw [runAppends, List.foldl_append]
  simp only [List.foldl_cons, List.foldl_nil]
  rw [show List.foldl (appendTrim cap) [] front = runAppends cap [] front from rfl]
  rw [runAppends_no_trim cap front [] (by simp [hfront])]
  simp only [List.nil_append]
  unfold appendTrim lastSlice
  have hgt : (front ++ [a]).length > cap := by
    simp only [List.length_append, List.length_cons, List.length_nil]
    omega
  rw [if_pos hgt, if_neg (by omega)]
  have hidx : (front ++ [a]).length - cap = 1 := by
    simp only [List.length_append, List.length_cons, List.length_nil]
    omega
  rw [hidx]

/-- Claim C2: for every latitude, longitude and hour, the generated
temperature equals the spec formula round(30 - abs lat * 0.5 +
(-8 + 16 * (1 - abs ((hour - 14) / 12))), 1 decimal) clamped to
[-10, 45]; consequently the temperature is always in [-10, 45]; and at
lat = 29.53, lon = 78.7742, hour = 2 the result is 7.2. -/
theorem claim_C2_temperature_formula :
    (∀ (lat lon : ℚ) (hour : ℕ),
      (generateFallbackData lat lon hour).current_temp = specCurrentTemp lat hour ∧
      (-10 : ℚ) ≤ (generateFallbackData lat lon hour).current_temp ∧
      (generateFallbackData lat lon hour).current_temp ≤ 45) ∧
    (generateFallbackData 29.53 78.7742 2).current_temp = 7.2 := by
  constructor
  · intro lat lon hour
    refine ⟨rfl, ?_, ?_⟩
    · rw [generateFallbackData_current_temp, qmax_eq_max, qmin_eq_min]
      exact le_max_right _ _
    · rw [generateFallbackData_current_temp, qmax_eq_max, qmin_eq_min]
      exact max_le (le_trans (min_le_right _ _) (by norm_num)) (by norm_num)
  · rw [generateFallbackData_current_temp]
    have h1 : qabs (29.53 : ℚ) = 29.53 := by
      unfold qabs
      rw [if_neg (by norm_num)]
    have h2 : qabs ((((2 : ℕ) : ℚ) - 14) / 12) = 1 := by
      unfold qabs
      rw [if_pos (by norm_num)]
      norm_num
    rw [h1, h2]
    have h3 : (30 : ℚ) - 29.53 * 0.5 + (-8 + (16 * (1 - 1))) = 1447/200 := by norm_num
    rw [h3]
    have h4 : round1 (1447/200) = 7.2 := by
      unfold round1
      rw [show (10 : ℚ) * (1447/200) = 1447/20 by norm_num]
      rw [roundHalfEven_of_lt_half (1447/20) 72 (by norm_num) (by norm_num)]
      norm_num
    rw [h4]
    have h5 : qmin (7.2 : ℚ) 45 = 7.2 := by
      unfold qmin
      rw [if_neg (by norm_num)]
    have h6 : qmax (7.2 : ℚ) (-10) = 7.2 := by
      unfold qmax
      rw [if_neg (by norm_num)]
    rw [h5, h6]

/-- Claim C4: for every latitude the generated humidity equals
clamp(round(60 + (90 - abs lat) * 0.5), 30, 95), hence it is always in
[30, 95]. -/
theorem claim_C4_humidity_formula :
    ∀ (lat lon : ℚ) (hour : ℕ),
      (generateFallbackData lat lon hour).humidity = specHumidity lat ∧
      (30 : ℤ) ≤ (generateFallbackData lat lon hour).humidity ∧
      (generateFallbackData lat lon hour).humidity ≤ 95 := by
  intro lat lon hour
  refine ⟨?_, ?_, ?_⟩
  · rw [generateFallbackData_humidity]
    unfold specHumidity
    rw [imin_eq_min, imax_eq_max, imin_eq_min, imax_eq_max]
    omega
  · rw [generateFallbackData_humidity, imin_eq_min, imax_eq_max]
    exact le_min (by norm_num) (le_max_left _ _)
  · rw [generateFallbackData_humidity, imin_eq_min]
    exact min_le_left _ _

/-- Claim C5: for every longitude the generated wind speed equals
round((abs lon mod 10) + 2, 1 decimal), and lon = 0 yields
wind_speed = 2.0. -/
theorem claim_C5_wind_speed_formula :
    (∀ (lat lon : ℚ) (hour : ℕ),
      (generateFallbackData lat lon hour).wind_speed = specWindSpeed lon) ∧
    (∀ (lat : ℚ) (hour : ℕ), (generateFallbackData lat 0 hour).wind_speed = 2) := by
  constructor
  · intro lat lon hour
    rfl
  · intro lat hour
    rw [generateFallbackData_wind_speed]
    have h0 : qabs (0 : ℚ) = 0 := by
      unfold qabs
      rw [if_neg (by norm_num)]
    rw [h0]
    have h1 : pymod (0 : ℚ) 10 = 0 := by
      unfold pymod
      norm_num
    rw [h1]
    unfold round1
    rw [show (10 : ℚ) * (0 + 2) = 20 by norm_num]
    rw [roundHalfEven_of_lt_half 20 20 (by norm_num) (by norm_num)]
    norm_num

/-- Claim C6: the generator is total (none of its partial operations can
fail, so it always returns a full Reading) and deterministic: equal
inputs (lat, lon, hour) give equal Readings. -/
theorem claim_C6_generator_total_deterministic :
    (∀ (lat lon : ℚ) (hour : ℕ),
      generateFallbackDataChecked lat lon hour = some (generateFallbackData lat lon hour)) ∧
    (∀ (lat₁ lon₁ : ℚ) (hour₁ : ℕ) (lat₂ lon₂ : ℚ) (hour₂ : ℕ),
      lat₁ = lat₂ → lon₁ = lon₂ → hour₁ = hour₂ →
      generateFallbackData lat₁ lon₁ hour₁ = generateFallbackData lat₂ lon₂ hour₂) := by
  constructor
  · intro lat lon hour
    unfold generateFallbackDataChecked generateFallbackData round1Checked qdivChecked
      pymodChecked round1
    rw [if_neg (by norm_num : (12 : ℚ) ≠ 0), if_neg (by norm_num : (10 : ℚ) ≠ 0),
      if_neg (by norm_num : (10 : ℚ) ≠ 0)]
    rfl
  · intro lat₁ lon₁ hour₁ lat₂ lon₂ hour₂ hlat hlon hhour
    rw [hlat, hlon, hhour]

/-- Witness for claim C6 at concrete inputs. -/
theorem claim_C6_generator_total_deterministic_witness :
    generateFallbackDataChecked 1 2 3 = some (generateFallbackData 1 2 3) ∧
    generateFallbackData 1 2 3 = generateFallbackData 1 2 3 :=
  ⟨claim_C6_generator_total_deterministic.1 1 2 3,
   claim_C6_generator_total_deterministic.2 1 2 3 1 2 3 rfl rfl rfl⟩

/-- Claim C7: fetch_weather_data fails open: on any non-success response
(status code not 200) or any exception during the network call, it
returns exactly the fallback data; it never fails itself. -/
theorem claim_C7_fetch_fails_open :
    ∀ (lat lon : ℚ) (hour : ℕ) (outcome : ApiOutcome) (randTempChange : ℚ),
      apiSuccess outcome = false →
      fetch_weather_data lat lon hour outcome randTempChange =
        generateFallbackData lat lon hour := by
  intro lat lon hour outcome randTempChange hfail
  cases outcome with
  | response sc t h w =>
      simp only [apiSuccess, beq_eq_false_iff_ne, ne_eq] at hfail
      simp only [fetch_weather_data]
      rw [if_neg hfail]
  | exception => rfl

/-- Witness for claim C7: a 404 response falls back to the generator. -/
theorem claim_C7_fetch_fails_open_witness :
    apiSuccess (ApiOutcome.response 404 0 0 0) = false ∧
    fetch_weather_data 1 2 3 (ApiOutcome.response 404 0 0 0) 0 =
      generateFallbackData 1 2 3 :=
  ⟨rfl, claim_C7_fetch_fails_open 1 2 3 (ApiOutcome.response 404 0 0 0) 0 rfl⟩

/-- Claim C10: the two app variants' generators are extensionally equal,
and the temp_export variant's fetch_weather_data (which has no network
path) equals the fallback generator on every input. -/
theorem claim_C10_variants_extensionally_equal :
    (∀ (lat lon : ℚ) (hour : ℕ),
      TempExport.generateFallbackData lat lon hour = generateFallbackData lat lon hour) ∧
    (∀ (lat lon : ℚ) (hour : ℕ),
      TempExport.fetch_weather_data lat lon hour = generateFallbackData lat lon hour) :=
  ⟨fun _ _ _ => rfl, fun _ _ _ => rfl⟩

/-- Claim C3: appending cap + 1 entries for one location to the initially
empty store leaves exactly the last cap entries in insertion order (the
oldest entry is dropped first), and a single append never grows a
sequence already within the cap beyond the cap. -/
theorem claim_C3_fifo_eviction (cap : ℕ) (hcap : 0 < cap) (loc : String)
    (es : List HistoryEntry) (hlen : es.length = cap + 1) :
    historyGet (appendSeq cap emptyHistory loc es) loc = es.drop 1 ∧
    ∀ (store : HistoryStore) (e : HistoryEntry),
      (historyGet store loc).length ≤ cap →
      (historyGet (appendEntry cap store loc e) loc).length ≤ cap := by
  constructor
  · rw [historyGet_appendSeq]
    exact runAppends_overflow cap hcap es hlen
  · intro store e hs
    rw [historyGet_appendEntry_self]
    exact appendTrim_length_le cap hcap _ e hs

/-- Witness for claim C3 with cap 2 and three entries: the first entry
is evicted. -/
theorem claim_C3_fifo_eviction_witness :
    historyGet (appendSeq 2 emptyHistory "A" [sampleEntry 1, sampleEntry 2, sampleEntry 3]) "A" =
      [sampleEntry 2, sampleEntry 3] :=
  (claim_C3_fifo_eviction 2 (by decide) "A"
    [sampleEntry 1, sampleEntry 2, sampleEntry 3] (by decide)).1

/-- Claim C1 as stated is false: the source computes the cap as
int(24 * 60 / refresh_interval), a floor, while the claim says
ceil(24 * 60 / refresh_interval); at refresh_interval = 25 (an allowed
slider value) the code's cap is 57 but the ceiling is 58. -/
theorem claim_C1_counterexample :
    max_history 25 = 57 ∧ ⌈(24 * 60 : ℚ) / 25⌉ = 58 := by
  constructor
  · decide
  · rw [Int.ceil_eq_iff]
    constructor <;> norm_num

/-- Claim C1 amended: for every refresh interval in the allowed range,
the cap equals floor(24 * 60 / refresh_interval), and once the
cap-triggered eviction fires after an append, the retained sequence
length equals exactly that floor. -/
theorem claim_C1_history_cap (r : ℕ) (h5 : 5 ≤ r) (h60 : r ≤ 60)
    (store : HistoryStore) (loc : String) (e : HistoryEntry)
    (hfire : max_history r < (historyGet store loc).length + 1) :
    max_history r = 24 * 60 / r ∧
    (historyGet (appendEntry (max_history r) store loc e) loc).length =
      max_history r := by
  have hcap : 0 < max_history r := by
    unfold max_history
    have h24 : 24 ≤ 24 * 60 / r := (Nat.le_div_iff_mul_le (by omega)).mpr (by omega)
    omega
  refine ⟨rfl, ?_⟩
  rw [historyGet_appendEntry_self]
  exact appendTrim_length_eq _ hcap _ e hfire

/-- Witness for amended claim C1 at refresh interval 15 with a full
96-entry history: the post-append length is again 96. -/
theorem claim_C1_history_cap_witness :
    max_history 15 = 96 ∧
    (historyGet (appendEntry (max_history 15)
      [("A", List.replicate 96 (sampleEntry 0))] "A" (sampleEntry 1)) "A").length = 96 := by
  have h := claim_C1_history_cap 15 (by decide) (by decide)
    [("A", List.replicate 96 (sampleEntry 0))] "A" (sampleEntry 1) (by decide)
  exact ⟨h.1.trans (by decide), h.2.trans (by decide)⟩

/-- Claim C8: appending an entry for one location leaves every other
location's stored sequence unchanged, both as a raw dict read and as the
guarded read. -/
theorem claim_C8_location_isolation :
    ∀ (cap : ℕ) (store : HistoryStore) (loc : String) (e : HistoryEntry)
      (other : String), other ≠ loc →
      dictLookup (appendEntry cap store loc e) other = dictLookup store other ∧
      historyGet (appendEntry cap store loc e) other = historyGet store other := by
  intro cap store loc e other h
  have hd := dictLookup_appendEntry_other cap store loc other e h
  refine ⟨hd, ?_⟩
  unfold historyGet
  rw [hd]

/-- Witness for claim C8: appending for location A leaves location B's
sequence unchanged. -/
theorem claim_C8_location_isolation_witness :
    dictLookup (appendEntry 96 [("B", [sampleEntry 0])] "A" (sampleEntry 1)) "B" =
        dictLookup [("B", [sampleEntry 0])] "B" ∧
    historyGet (appendEntry 96 [("B", [sampleEntry 0])] "A" (sampleEntry 1)) "B" =
        historyGet [("B", [sampleEntry 0])] "B" :=
  claim_C8_location_isolation 96 [("B", [sampleEntry 0])] "A" (sampleEntry 1) "B"
    (by decide)

/-- Claim C9: after any sequence of appends that never targets a given
location, the raw dict has no key for it (a bare read would be a
KeyError), and the guarded read returns the empty sequence rather than
failing. -/
theorem claim_C9_unknown_location_empty :
    ∀ (cap : ℕ) (ops : List (String × HistoryEntry)) (loc : String),
      (∀ p ∈ ops, p.1 ≠ loc) →
      dictLookup (appendMany cap emptyHistory ops) loc = none ∧
      historyGet (appendMany cap emptyHistory ops) loc = [] := by
  intro cap ops loc hall
  have key : ∀ (ops' : List (String × HistoryEntry)) (store : HistoryStore),
      (∀ p ∈ ops', p.1 ≠ loc) →
      dictLookup (appendMany cap store ops') loc = dictLookup store loc := by
    intro ops'
    induction ops' with
    | nil => intro store _; rfl
    | cons p ops' ih =>
        intro store hall'
        show dictLookup (appendMany cap (appendEntry cap store p.1 p.2) ops') loc =
          dictLookup store loc
        rw [ih _ (fun q hq => hall' q (List.mem_cons_of_mem _ hq))]
        exact dictLookup_appendEntry_other cap store p.1 loc p.2
          (Ne.symm (hall' p (List.mem_cons_self _ _)))
  have hnone : dictLookup (appendMany cap emptyHistory ops) loc = none :=
    key ops emptyHistory hall
  refine ⟨hnone, ?_⟩
  unfold historyGet
  rw [hnone]
  rfl

/-- Witness for claim C9: after an append for location A, reading
location B gives no key and an empty guarded result. -/
theorem claim_C9_unknown_location_empty_witness :
    dictLookup (appendMany 96 emptyHistory [("A", sampleEntry 0)]) "B" = none ∧
    historyGet (appendMany 96 emptyHistory [("A", sampleEntry 0)]) "B" = [] :=
  claim_C9_unknown_location_empty 96 [("A", sampleEntry 0)] "B" (by decide)

end Forest
